import Mathlib

/-!
Verification of the Theseus boot-time memory-initialization orchestrator
(`kernel/memory_initialization/src/lib.rs`) and of the RTC driver
(`src/interrupts/rtc.rs`), as a shallow embedding.

The orchestrator `init_memory_management` is embedded as a pure function from
an environment describing the outcomes of its fallible external collaborators
(`memory::init`, `Stack::from_pages` contiguity, `allocate_pages_by_bytes_at`,
`page_table.map_allocated_pages`, `memory::init_post_heap`) to the returned
`Result` together with an explicit trace of ownership and lock events:
which `MappedPages` are passed to `core::mem::forget` (released without their
unmap side effect), which are dropped normally (unmap side effect runs),
when the frame-allocator lock is acquired and released, what virtual range is
requested for the heap, and when the heap allocator is activated.

The RTC driver is embedded as explicit state passing over a CMOS register
file (`selected` register latch at port 0x70, register contents read/written
through port 0x71), an interrupts-enabled flag, and the interrupt-tick
counter (an `AtomicUsize` in the source; execution is single-threaded here,
so the atomic increment is one state update, with `usize` wraparound made
explicit as reduction modulo 2 ^ 64).
-/

namespace MemoryInit

/-- Modelled from the spec: the fixed configured constant
`kernel_config::memory::KERNEL_HEAP_START` is not among the provided sources;
the spec states it is a fixed configuration value (a canonical kernel-space
virtual address), not computed from Boot Information. A representative
canonical value is used; no theorem depends on the particular value beyond
its canonicity. -/
def KERNEL_HEAP_START : Nat := 0xFFFFFE8000000000

/-- Modelled from the spec: the fixed configured constant
`kernel_config::memory::KERNEL_HEAP_INITIAL_SIZE` (heap initial byte size) is
not among the provided sources; the spec states it is a fixed configuration
value. A representative value is used. -/
def KERNEL_HEAP_INITIAL_SIZE : Nat := 0x100000

/-- Modelled from the spec: `VirtualAddress::new_canonical` of the
Address-Space Initializer's address type (the `memory` crate is not among the
provided sources). It forms an x86_64 canonical address by sign-extending
bit 47 over the top 16 bits. -/
def VirtualAddress.new_canonical (addr : Nat) : Nat :=
  if Nat.testBit addr 47 then addr % 2 ^ 48 + (2 ^ 64 - 2 ^ 48) else addr % 2 ^ 48

/-- The owned virtual-memory resources handled by `init_memory_management`:
the `MappedPages` of the kernel text, rodata and data sections, the raw
candidate stack pages, the constructed initial `Stack`, the higher-half
mappings backing the new page table, the identity mappings, and the heap
mapping. -/
inductive Region
  | text
  | rodata
  | data
  | stackPages
  | stack
  | higherHalf
  | identity
  | heap
  deriving DecidableEq, Fintype, Repr

/-- Observable side effects of one run of `init_memory_management`, in
program order. `forget r` is `core::mem::forget(r)`: ownership released
without running the destructor, so the region stays mapped. `drop r` is a
normal drop of a `MappedPages`, which unmaps the region. `allocRequest` is
the virtual range passed to `allocate_pages_by_bytes_at`; `mapDone` is the
range of the heap `MappedPages` produced by `map_allocated_pages`;
`heapInit` is the `heap::init_single_heap` activation; `errorLog` is the
`error!` line emitted when heap mapping fails, carrying the configured size
and start address and the inner mapping error. -/
inductive Event
  | forget (r : Region)
  | drop (r : Region)
  | allocRequest (addr size : Nat)
  | lockAcquire
  | lockRelease
  | errorLog (size addr : Nat) (inner : String)
  | mapDone (addr size : Nat)
  | heapInit (start size : Nat)
  deriving DecidableEq, Repr

/-- The part of `memory::init`'s successful output that the orchestrator
inspects: the stack guard page and the candidate stack pages, as page
numbers. The remaining outputs (frame allocator, page table, the section /
higher-half / identity `MappedPages`) are tracked as `Region` tokens. -/
structure MemInitOut where
  stackGuardPage : Nat
  stackPages : List Nat
  deriving DecidableEq, Repr

/-- The environment of one run: the outcome of each fallible external call
made by `init_memory_management`, in call order. -/
structure Externals where
  memInit : Except String MemInitOut
  allocRes : Except String Unit
  mapRes : Except String Unit
  postHeap : Except String Unit
  deriving Repr

/-- A stack as constructed by `Stack::from_pages`: the guard page together
with the pages of its contiguous mapped region. -/
structure Stack where
  guard : Nat
  pages : List Nat
  deriving DecidableEq, Repr

/-- `pages` lists consecutive page numbers starting exactly at `start`. -/
def contiguousFrom (start : Nat) : List Nat → Bool
  | [] => true
  | p :: rest => p == start && contiguousFrom (start + 1) rest

/-- Modelled from the spec: `stack::Stack::from_pages` (the `stack` crate is
not among the provided sources). Per the spec, stack construction succeeds
if and only if the candidate stack pages form a single contiguous virtual
range immediately adjoining the guard page; on failure the inputs are handed
back to the caller, mirroring `Err((guard, pages))`. -/
def Stack.from_pages (guard : Nat) (pages : List Nat) :
    Except (Nat × List Nat) Stack :=
  if pages ≠ [] ∧ contiguousFrom (guard + 1) pages then
    .ok ⟨guard, pages⟩
  else
    .error (guard, pages)

/-- The error message returned when the initial stack is not contiguous
(spec name: StackNotContiguous). -/
def stackNotContiguousMsg : String :=
  "initial Stack was not contiguous in virtual memory"

/-- The error message returned when mapping the heap fails
(spec name: HeapMappingFailed). -/
def heapMappingFailedMsg : String :=
  "Failed to map the kernel heap memory. Perhaps the KERNEL_HEAP_INITIAL_SIZE exceeds the size of the system's physical memory?"

/-- The result of a run: the returned value and the event trace. -/
structure RunResult where
  result : Except String Stack
  trace : List Event
  deriving Repr

/-- The regions passed to `try_forget!` on the stack-construction failure
path (note: `stack_pages` is among them). -/
def forgetOnStackFail : List Event :=
  [.forget .text, .forget .rodata, .forget .data, .forget .stackPages,
   .forget .higherHalf, .forget .identity]

/-- The regions passed to `try_forget!` on the heap-reservation and
heap-mapping failure paths. -/
def forgetOnHeapFail : List Event :=
  [.forget .text, .forget .rodata, .forget .data, .forget .stack,
   .forget .higherHalf, .forget .identity]

/-- Shallow embedding of `init_memory_management`, following the source's
control flow line by line. On success the returned `Stack` stands for the
full success tuple. Drops of non-`MappedPages` locals (the guard page's
`AllocatedPages`, the page table, the heap's `AllocatedPages` consumed by
`map_allocated_pages`) have no unmap side effect and are not traced. -/
def init_memory_management (ext : Externals) : RunResult :=
  match ext.memInit with
  | .error e => ⟨.error e, []⟩
  | .ok mi =>
    match Stack.from_pages mi.stackGuardPage mi.stackPages with
    | .error _ => ⟨.error stackNotContiguousMsg, forgetOnStackFail⟩
    | .ok stack =>
      let heap_start := KERNEL_HEAP_START
      let heap_initial_size := KERNEL_HEAP_INITIAL_SIZE
      let reqAddr := VirtualAddress.new_canonical heap_start
      let ev0 := [Event.allocRequest reqAddr heap_initial_size]
      match ext.allocRes with
      | .error e => ⟨.error e, ev0 ++ forgetOnHeapFail⟩
      | .ok _ =>
        match ext.mapRes with
        | .error e =>
          ⟨.error heapMappingFailedMsg,
           ev0 ++ [Event.lockAcquire,
                   Event.errorLog heap_initial_size heap_start e]
               ++ forgetOnHeapFail ++ [Event.lockRelease]⟩
        | .ok _ =>
          let ev1 := ev0 ++ [Event.lockAcquire,
                             Event.mapDone reqAddr heap_initial_size,
                             Event.heapInit heap_start heap_initial_size,
                             Event.lockRelease]
          match ext.postHeap with
          | .error e =>
            ⟨.error e,
             ev1 ++ [Event.drop .stack, Event.drop .data,
                     Event.drop .rodata, Event.drop .text]⟩
          | .ok _ => ⟨.ok stack, ev1⟩

/-- The `MappedPages` of step 1 that back currently executing code and the
page table's own storage: critical on every failure path. -/
def criticalRegions : List Region :=
  [Region.text, Region.rodata, Region.data, Region.higherHalf, Region.identity]

/-- Whether the run gets past step 2, i.e. the initial `Stack` is
constructed. -/
def stackConstructed (ext : Externals) : Bool :=
  match ext.memInit with
  | .error _ => false
  | .ok mi =>
    match Stack.from_pages mi.stackGuardPage mi.stackPages with
    | .ok _ => true
    | .error _ => false

/-- Whether the run fails at orchestration step 2 (stack construction),
step 3 (heap virtual-range reservation) or step 4 (heap mapping). -/
def failsAtStep2to4 (ext : Externals) : Bool :=
  match ext.memInit with
  | .error _ => false
  | .ok mi =>
    match Stack.from_pages mi.stackGuardPage mi.stackPages with
    | .error _ => true
    | .ok _ =>
      match ext.allocRes with
      | .error _ => true
      | .ok _ =>
        match ext.mapRes with
        | .error _ => true
        | .ok _ => false

/-- Whether the run gets past step 4, i.e. the heap range is successfully
mapped. -/
def mapReached (ext : Externals) : Bool :=
  match ext.memInit with
  | .error _ => false
  | .ok mi =>
    match Stack.from_pages mi.stackGuardPage mi.stackPages with
    | .error _ => false
    | .ok _ =>
      match ext.allocRes with
      | .error _ => false
      | .ok _ =>
        match ext.mapRes with
        | .error _ => false
        | .ok _ => true

/-- Recognizes a heap-allocator activation event. -/
def isHeapInit : Event → Bool
  | .heapInit _ _ => true
  | _ => false

/-- Every `heapInit` event in the trace occurs after a `mapDone` event
(`seen` records whether a `mapDone` has already occurred). -/
def heapInitOnlyAfterMap : List Event → Bool → Bool
  | [], _ => true
  | Event.mapDone _ _ :: rest, _ => heapInitOnlyAfterMap rest true
  | Event.heapInit _ _ :: rest, seen => seen && heapInitOnlyAfterMap rest seen
  | _ :: rest, seen => heapInitOnlyAfterMap rest seen

/-- Some `heapInit` event occurs while the frame-allocator lock is held
(`held` tracks the lock state along the trace). -/
def heapInitUnderLock : List Event → Bool → Bool
  | [], _ => false
  | Event.lockAcquire :: rest, _ => heapInitUnderLock rest true
  | Event.lockRelease :: rest, _ => heapInitUnderLock rest false
  | Event.heapInit _ _ :: rest, held => held || heapInitUnderLock rest held
  | _ :: rest, held => heapInitUnderLock rest held

/-- Starting from lock state `held`, the trace ends with the lock released. -/
def lockEndsReleased : List Event → Bool → Bool
  | [], held => !held
  | Event.lockAcquire :: rest, _ => lockEndsReleased rest true
  | Event.lockRelease :: rest, _ => lockEndsReleased rest false
  | _ :: rest, held => lockEndsReleased rest held

/-- Recognizes the outcome event of the heap-mapping operation: either the
mapped range (`mapDone`) or the mapping-failure log (`errorLog`). -/
def isMapAttempt : Event → Bool
  | .mapDone _ _ => true
  | .errorLog _ _ _ => true
  | _ => false

/-- Every `lockAcquire` in the trace is immediately followed by the
heap-mapping operation's outcome event: the lock is taken exactly for the
mapping operation, never earlier. -/
def acquireImmediatelyPrecedesMap : List Event → Bool
  | [] => true
  | Event.lockAcquire :: next :: rest =>
    isMapAttempt next && acquireImmediatelyPrecedesMap (next :: rest)
  | [Event.lockAcquire] => false
  | _ :: rest => acquireImmediatelyPrecedesMap rest

end MemoryInit

namespace Rtc

/-- The driver-visible machine state: the CMOS register selected by the last
write to port 0x70, the CMOS register file read and written through port
0x71, the CPU interrupt-enable flag, and the RTC interrupt-tick counter
(static `RTC_TICKS`, referenced as `TICKS` in the handler). -/
structure RtcState where
  selected : Nat
  regs : Nat → Nat
  intsEnabled : Bool
  ticks : Nat

/-- `irq_safety::disable_interrupts`. -/
def disable_interrupts (s : RtcState) : RtcState := { s with intsEnabled := false }

/-- `irq_safety::enable_interrupts`. -/
def enable_interrupts (s : RtcState) : RtcState := { s with intsEnabled := true }

/-- `write_cmos`: write `value` to port 0x70, selecting a CMOS register. -/
def write_cmos (value : Nat) (s : RtcState) : RtcState := { s with selected := value }

/-- `read_cmos`: read port 0x71, returning the selected register's value. -/
def read_cmos (s : RtcState) : Nat := s.regs s.selected

/-- Writing port 0x71 through `CMOS_WRITE_SETTINGS`: set the selected
register's value, leaving every other register unchanged. -/
def write_cmos_settings (value : Nat) (s : RtcState) : RtcState :=
  { s with regs := fun r => if r = s.selected then value else s.regs r }

/-- `get_update_in_progress`: select register 0x0A and test whether the read
value equals 1. -/
def get_update_in_progress (s : RtcState) : Bool × RtcState :=
  let s1 := write_cmos 0x0A s
  (read_cmos s1 == 1, s1)

/-- The `while get_update_in_progress() {}` busy-spin of `read_register`.
The hardware clears the update-in-progress flag asynchronously, which a pure
state model cannot express, so the spin is given explicit fuel; no theorem
below depends on the fuel. -/
def read_register_wait : Nat → RtcState → RtcState
  | 0, s => (get_update_in_progress s).2
  | fuel + 1, s =>
    let p := get_update_in_progress s
    if p.1 then read_register_wait fuel p.2 else p.2

/-- `read_register`: wait out the update-in-progress flag, select `register`,
read its value and convert it from BCD to binary. -/
def read_register (fuel : Nat) (register : Nat) (s : RtcState) : Nat × RtcState :=
  let s1 := read_register_wait fuel s
  let s2 := write_cmos register s1
  let bcd := read_cmos s2
  ((bcd / 16) * 10 + (bcd &&& 0xF), s2)

/-- The `time` struct returned by `read_rtc`. -/
structure time where
  seconds : Nat
  minutes : Nat
  hours : Nat
  days : Nat
  months : Nat
  years : Nat
  deriving DecidableEq, Repr

/-- `read_rtc`: read seconds, minutes, hours, days, months, years from the
CMOS clock registers. -/
def read_rtc (fuel : Nat) (s : RtcState) : time × RtcState :=
  let second := read_register fuel 0x00 s
  let minute := read_register fuel 0x02 second.2
  let hour := read_register fuel 0x04 minute.2
  let day := read_register fuel 0x07 hour.2
  let month := read_register fuel 0x08 day.2
  let year := read_register fuel 0x09 month.2
  (⟨second.1, minute.1, hour.1, day.1, month.1, year.1⟩, year.2)

/-- `enable_rtc_interrupt`: acknowledge via register 0x0C, then read register
0x8B (register B with NMI disabled), re-select it, and write back the read
value with bit 6 set. -/
def enable_rtc_interrupt (s : RtcState) : RtcState :=
  let s1 := disable_interrupts s
  let s2 := write_cmos 0x0C s1
  let s3 := write_cmos 0x8B s2
  let prev := read_cmos s3
  let s4 := write_cmos 0x8B s3
  let s5 := write_cmos_settings (prev ||| 0x40) s4
  enable_interrupts s5

/-- `heartbeat_period_ms`. -/
def heartbeat_period_ms : Nat := 1000

/-- `change_rtc_frequency`: read register 0x8A (register A with NMI
disabled), re-select it, and write back its top 4 bits with the bottom 4
bits replaced by `rate`. -/
def change_rtc_frequency (rate : Nat) (s : RtcState) : RtcState :=
  let s1 := disable_interrupts s
  let s2 := write_cmos 0x8A s1
  let prev := read_cmos s2
  let s3 := write_cmos 0x8A s2
  let s4 := write_cmos_settings ((prev &&& 0xF0) ||| rate) s3
  enable_interrupts s4

/-- `handle_rtc_interrupt`: acknowledge the interrupt via register 0x0C,
increment the tick counter (`fetch_add(1)` on a `usize`, so modulo 2 ^ 64),
and report whether the heartbeat trace message is emitted, which happens
exactly when the incremented count is a multiple of 128. -/
def handle_rtc_interrupt (s : RtcState) : RtcState × Bool :=
  let s1 := write_cmos 0x0C s
  let old_tick := s1.ticks
  let rtc_ticks := (old_tick + 1) % 2 ^ 64
  ({ s1 with ticks := rtc_ticks }, rtc_ticks % 128 == 0)

end Rtc

namespace MemoryInit

theorem new_canonical_heap_start :
    VirtualAddress.new_canonical KERNEL_HEAP_START = KERNEL_HEAP_START := by
  decide

theorem run_memInitErr (e : String) (a m p : Except String Unit) :
    init_memory_management ⟨.error e, a, m, p⟩ = ⟨.error e, []⟩ := rfl

theorem run_stackFail (mi : MemInitOut) (a m p : Except String Unit) (x : Nat × List Nat)
    (h : Stack.from_pages mi.stackGuardPage mi.stackPages = .error x) :
    init_memory_management ⟨.ok mi, a, m, p⟩ =
      ⟨.error stackNotContiguousMsg, forgetOnStackFail⟩ := by
  simp [init_memory_management, h]

theorem run_allocFail (mi : MemInitOut) (st : Stack) (e : String) (m p : Except String Unit)
    (h : Stack.from_pages mi.stackGuardPage mi.stackPages = .ok st) :
    init_memory_management ⟨.ok mi, .error e, m, p⟩ =
      ⟨.error e,
       Event.allocRequest KERNEL_HEAP_START KERNEL_HEAP_INITIAL_SIZE ::
         forgetOnHeapFail⟩ := by
  simp [init_memory_management, h, new_canonical_heap_start]

theorem run_mapFail (mi : MemInitOut) (st : Stack) (e : String) (p : Except String Unit)
    (h : Stack.from_pages mi.stackGuardPage mi.stackPages = .ok st) :
    init_memory_management ⟨.ok mi, .ok (), .error e, p⟩ =
      ⟨.error heapMappingFailedMsg,
       [Event.allocRequest KERNEL_HEAP_START KERNEL_HEAP_INITIAL_SIZE,
        Event.lockAcquire,
        Event.errorLog KERNEL_HEAP_INITIAL_SIZE KERNEL_HEAP_START e]
       ++ forgetOnHeapFail ++ [Event.lockRelease]⟩ := by
  simp [init_memory_management, h, new_canonical_heap_start]

theorem run_postHeapFail (mi : MemInitOut) (st : Stack) (e : String)
    (h : Stack.from_pages mi.stackGuardPage mi.stackPages = .ok st) :
    init_memory_management ⟨.ok mi, .ok (), .ok (), .error e⟩ =
      ⟨.error e,
       [Event.allocRequest KERNEL_HEAP_START KERNEL_HEAP_INITIAL_SIZE,
        Event.lockAcquire,
        Event.mapDone KERNEL_HEAP_START KERNEL_HEAP_INITIAL_SIZE,
        Event.heapInit KERNEL_HEAP_START KERNEL_HEAP_INITIAL_SIZE,
        Event.lockRelease,
        Event.drop .stack, Event.drop .data,
        Event.drop .rodata, Event.drop .text]⟩ := by
  simp [init_memory_management, h, new_canonical_heap_start]

theorem run_success (mi : MemInitOut) (st : Stack)
    (h : Stack.from_pages mi.stackGuardPage mi.stackPages = .ok st) :
    init_memory_management ⟨.ok mi, .ok (), .ok (), .ok ()⟩ =
      ⟨.ok st,
       [Event.allocRequest KERNEL_HEAP_START KERNEL_HEAP_INITIAL_SIZE,
        Event.lockAcquire,
        Event.mapDone KERNEL_HEAP_START KERNEL_HEAP_INITIAL_SIZE,
        Event.heapInit KERNEL_HEAP_START KERNEL_HEAP_INITIAL_SIZE,
        Event.lockRelease]⟩ := by
  simp [init_memory_management, h, new_canonical_heap_start]

end MemoryInit

namespace MemoryInit

theorem contiguousFrom_iff (ps : List Nat) :
    ∀ start, contiguousFrom start ps = true ↔ ps = List.range' start ps.length := by
  induction ps with
  | nil => intro start; simp [contiguousFrom]
  | cons p rest ih =>
    intro start
    simp [contiguousFrom, List.range'_succ, ih]

/-- C1: every failure at orchestration steps 2-4 returns an error after
passing each critical `MappedPages` from `memory::init` (text, rodata, data,
higher-half, identity, and, once constructed, the Stack) to
`core::mem::forget`, never dropping (unmapping) any of them. -/
theorem claim1_leak_on_critical_failure (ext : Externals)
    (h : failsAtStep2to4 ext = true) :
    (∃ e, (init_memory_management ext).result = Except.error e) ∧
    (∀ r ∈ criticalRegions,
      Event.forget r ∈ (init_memory_management ext).trace ∧
      Event.drop r ∉ (init_memory_management ext).trace) ∧
    (stackConstructed ext = true →
      Event.forget Region.stack ∈ (init_memory_management ext).trace ∧
      Event.drop Region.stack ∉ (init_memory_management ext).trace) := by
  obtain ⟨mi, a, m, p⟩ := ext
  cases mi with
  | error e => simp [failsAtStep2to4] at h
  | ok v =>
    cases hs : Stack.from_pages v.stackGuardPage v.stackPages with
    | error x =>
      rw [run_stackFail v a m p x hs]
      refine ⟨⟨stackNotContiguousMsg, rfl⟩, ?_, ?_⟩
      · intro r hr
        simp only [criticalRegions, List.mem_cons, List.not_mem_nil, or_false] at hr
        rcases hr with rfl | rfl | rfl | rfl | rfl <;> simp [forgetOnStackFail]
      · intro hc
        simp [stackConstructed, hs] at hc
    | ok st =>
      cases a with
      | error e =>
        rw [run_allocFail v st e m p hs]
        refine ⟨⟨e, rfl⟩, ?_, ?_⟩
        · intro r hr
          simp only [criticalRegions, List.mem_cons, List.not_mem_nil, or_false] at hr
          rcases hr with rfl | rfl | rfl | rfl | rfl <;> simp [forgetOnHeapFail]
        · intro _
          simp [forgetOnHeapFail]
      | ok u =>
        cases u
        cases m with
        | error e =>
          rw [run_mapFail v st e p hs]
          refine ⟨⟨heapMappingFailedMsg, rfl⟩, ?_, ?_⟩
          · intro r hr
            simp only [criticalRegions, List.mem_cons, List.not_mem_nil, or_false] at hr
            rcases hr with rfl | rfl | rfl | rfl | rfl <;> simp [forgetOnHeapFail]
          · intro _
            simp [forgetOnHeapFail]
        | ok u2 =>
          cases u2
          simp [failsAtStep2to4, hs] at h

theorem claim1_witness :
    Event.forget Region.stack ∈
      (init_memory_management ⟨.ok ⟨0, [1]⟩, .ok (), .error "no frames", .ok ()⟩).trace ∧
    Event.drop Region.stack ∉
      (init_memory_management ⟨.ok ⟨0, [1]⟩, .ok (), .error "no frames", .ok ()⟩).trace :=
  (claim1_leak_on_critical_failure ⟨.ok ⟨0, [1]⟩, .ok (), .error "no frames", .ok ()⟩
    (by decide)).2.2 (by decide)

/-- C2: `Stack::from_pages` succeeds if and only if the candidate stack
pages form one contiguous ascending range starting immediately after the
guard page, and whenever it fails `init_memory_management` returns the
StackNotContiguous error message. -/
theorem claim2_stack_contiguity :
    (∀ guard pages, (∃ st : Stack, Stack.from_pages guard pages = .ok st) ↔
        (pages ≠ [] ∧ pages = List.range' (guard + 1) pages.length)) ∧
    (∀ ext mi x, ext.memInit = .ok mi →
        Stack.from_pages mi.stackGuardPage mi.stackPages = .error x →
        (init_memory_management ext).result = .error stackNotContiguousMsg) := by
  constructor
  · intro g ps
    unfold Stack.from_pages
    split
    case isTrue hc =>
      exact iff_of_true ⟨⟨g, ps⟩, rfl⟩ ⟨hc.1, (contiguousFrom_iff ps (g + 1)).1 hc.2⟩
    case isFalse hc =>
      apply iff_of_false
      · rintro ⟨st, hst⟩
        exact Except.noConfusion hst
      · rintro ⟨h1, h2⟩
        exact hc ⟨h1, (contiguousFrom_iff ps (g + 1)).2 h2⟩
  · intro ext mi x hmi hx
    obtain ⟨emi, a, m, p⟩ := ext
    simp only at hmi
    subst hmi
    rw [run_stackFail mi a m p x hx]

theorem claim2_witness :
    (∃ st : Stack, Stack.from_pages 5 [6, 7] = .ok st) ∧
    (init_memory_management ⟨.ok ⟨5, [7, 9]⟩, .ok (), .ok (), .ok ()⟩).result =
      .error stackNotContiguousMsg :=
  ⟨(claim2_stack_contiguity.1 5 [6, 7]).2 (by decide),
   claim2_stack_contiguity.2 ⟨.ok ⟨5, [7, 9]⟩, .ok (), .ok (), .ok ()⟩ ⟨5, [7, 9]⟩
     (5, [7, 9]) rfl rfl⟩

/-- C3 counterexample: on the stack-construction failure path the
non-contiguous stack pages are NOT unmapped normally: the run passes them to
`core::mem::forget` (they are leaked), so the claimed behavior (their drop
runs, they are not forgotten) is false at this input. -/
theorem claim3_counterexample :
    ¬ (Event.drop Region.stackPages ∈
         (init_memory_management ⟨.ok ⟨5, [7, 9]⟩, .ok (), .ok (), .ok ()⟩).trace ∧
       Event.forget Region.stackPages ∉
         (init_memory_management ⟨.ok ⟨5, [7, 9]⟩, .ok (), .ok (), .ok ()⟩).trace) := by
  decide

/-- C3 amended: on stack-construction failure `init_memory_management`
returns the StackNotContiguous error and passes the text, rodata, data,
higher-half and identity regions AND the non-contiguous stack pages
themselves to `core::mem::forget`; nothing is dropped (no unmap side effect
runs at all on this path). -/
theorem claim3_amended (ext : Externals) (mi : MemInitOut) (x : Nat × List Nat)
    (hmi : ext.memInit = .ok mi)
    (hx : Stack.from_pages mi.stackGuardPage mi.stackPages = .error x) :
    init_memory_management ext = ⟨.error stackNotContiguousMsg, forgetOnStackFail⟩ ∧
    (∀ r, Event.drop r ∉ forgetOnStackFail) ∧
    Event.forget Region.stackPages ∈ forgetOnStackFail ∧
    (∀ r ∈ criticalRegions, Event.forget r ∈ forgetOnStackFail) := by
  refine ⟨?_, by decide, by decide, by decide⟩
  obtain ⟨emi, a, m, p⟩ := ext
  simp only at hmi
  subst hmi
  exact run_stackFail mi a m p x hx

theorem claim3_witness :
    init_memory_management ⟨.ok ⟨5, [7, 9]⟩, .ok (), .ok (), .ok ()⟩ =
      ⟨.error stackNotContiguousMsg, forgetOnStackFail⟩ :=
  (claim3_amended ⟨.ok ⟨5, [7, 9]⟩, .ok (), .ok (), .ok ()⟩ ⟨5, [7, 9]⟩
    (5, [7, 9]) rfl rfl).1

end MemoryInit

namespace MemoryInit

/-- C4: the heap virtual range is requested at exactly the configured
constants, for every environment (hence independent of Boot Information and
of every runtime value); the configured start is already canonical, so it is
passed verbatim; and every successful run maps the heap exactly at
`KERNEL_HEAP_START` with size `KERNEL_HEAP_INITIAL_SIZE`. -/
theorem claim4_heap_constants :
    VirtualAddress.new_canonical KERNEL_HEAP_START = KERNEL_HEAP_START ∧
    (∀ ext a s, Event.allocRequest a s ∈ (init_memory_management ext).trace →
      a = KERNEL_HEAP_START ∧ s = KERNEL_HEAP_INITIAL_SIZE) ∧
    (∀ ext st, (init_memory_management ext).result = .ok st →
      Event.mapDone KERNEL_HEAP_START KERNEL_HEAP_INITIAL_SIZE ∈
        (init_memory_management ext).trace ∧
      Event.allocRequest KERNEL_HEAP_START KERNEL_HEAP_INITIAL_SIZE ∈
        (init_memory_management ext).trace) := by
  refine ⟨new_canonical_heap_start, ?_, ?_⟩
  · intro ext a s hmem
    obtain ⟨mi, al, m, p⟩ := ext
    cases mi with
    | error e => rw [run_memInitErr] at hmem; simp at hmem
    | ok v =>
      cases hs : Stack.from_pages v.stackGuardPage v.stackPages with
      | error x =>
        rw [run_stackFail v al m p x hs] at hmem
        simp [forgetOnStackFail] at hmem
      | ok st =>
        cases al with
        | error e =>
          rw [run_allocFail v st e m p hs] at hmem
          simp [forgetOnHeapFail] at hmem
          exact hmem
        | ok u =>
          cases u
          cases m with
          | error e =>
            rw [run_mapFail v st e p hs] at hmem
            simp [forgetOnHeapFail] at hmem
            exact hmem
          | ok u2 =>
            cases u2
            cases p with
            | error e =>
              rw [run_postHeapFail v st e hs] at hmem
              simp at hmem
              exact hmem
            | ok u3 =>
              cases u3
              rw [run_success v st hs] at hmem
              simp at hmem
              exact hmem
  · intro ext st hok
    obtain ⟨mi, al, m, p⟩ := ext
    cases mi with
    | error e => rw [run_memInitErr] at hok; simp at hok
    | ok v =>
      cases hs : Stack.from_pages v.stackGuardPage v.stackPages with
      | error x =>
        rw [run_stackFail v al m p x hs] at hok
        simp at hok
      | ok st0 =>
        cases al with
        | error e =>
          rw [run_allocFail v st0 e m p hs] at hok
          simp at hok
        | ok u =>
          cases u
          cases m with
          | error e =>
            rw [run_mapFail v st0 e p hs] at hok
            simp at hok
          | ok u2 =>
            cases u2
            cases p with
            | error e =>
              rw [run_postHeapFail v st0 e hs] at hok
              simp at hok
            | ok u3 =>
              cases u3
              rw [run_success v st0 hs] at hok ⊢
              simp

theorem claim4_witness :
    Event.mapDone KERNEL_HEAP_START KERNEL_HEAP_INITIAL_SIZE ∈
      (init_memory_management ⟨.ok ⟨0, [1]⟩, .ok (), .ok (), .ok ()⟩).trace ∧
    Event.allocRequest KERNEL_HEAP_START KERNEL_HEAP_INITIAL_SIZE ∈
      (init_memory_management ⟨.ok ⟨0, [1]⟩, .ok (), .ok (), .ok ()⟩).trace :=
  claim4_heap_constants.2.2 ⟨.ok ⟨0, [1]⟩, .ok (), .ok (), .ok ()⟩ ⟨0, [1]⟩ rfl

/-- C5: the heap allocator is activated exactly once when heap mapping
succeeds and never otherwise (in particular not on any failure of steps
1-4); every activation occurs after the successful mapping event and is
passed exactly the configured start and size. In the model
`heap::init_single_heap` is infallible, as the spec defines it. -/
theorem claim5_heap_activation (ext : Externals) :
    (mapReached ext = true →
      (init_memory_management ext).trace.countP isHeapInit = 1) ∧
    (mapReached ext = false →
      (init_memory_management ext).trace.countP isHeapInit = 0) ∧
    heapInitOnlyAfterMap (init_memory_management ext).trace false = true ∧
    (∀ s z, Event.heapInit s z ∈ (init_memory_management ext).trace →
      s = KERNEL_HEAP_START ∧ z = KERNEL_HEAP_INITIAL_SIZE) := by
  obtain ⟨mi, al, m, p⟩ := ext
  cases mi with
  | error e =>
    rw [run_memInitErr]
    refine ⟨?_, ?_, ?_, ?_⟩ <;> simp [mapReached, heapInitOnlyAfterMap]
  | ok v =>
    cases hs : Stack.from_pages v.stackGuardPage v.stackPages with
    | error x =>
      rw [run_stackFail v al m p x hs]
      refine ⟨?_, ?_, ?_, ?_⟩ <;>
        simp [mapReached, hs, forgetOnStackFail, heapInitOnlyAfterMap, isHeapInit]
    | ok st =>
      cases al with
      | error e =>
        rw [run_allocFail v st e m p hs]
        refine ⟨?_, ?_, ?_, ?_⟩ <;>
          simp [mapReached, hs, forgetOnHeapFail, heapInitOnlyAfterMap, isHeapInit]
      | ok u =>
        cases u
        cases m with
        | error e =>
          rw [run_mapFail v st e p hs]
          refine ⟨?_, ?_, ?_, ?_⟩ <;>
            simp [mapReached, hs, forgetOnHeapFail, heapInitOnlyAfterMap, isHeapInit]
        | ok u2 =>
          cases u2
          cases p with
          | error e =>
            rw [run_postHeapFail v st e hs]
            refine ⟨?_, ?_, ?_, ?_⟩ <;>
              simp [mapReached, hs, heapInitOnlyAfterMap, isHeapInit]
          | ok u3 =>
            cases u3
            rw [run_success v st hs]
            refine ⟨?_, ?_, ?_, ?_⟩ <;>
              simp [mapReached, hs, heapInitOnlyAfterMap, isHeapInit]

theorem claim5_witness :
    (init_memory_management ⟨.ok ⟨0, [1]⟩, .ok (), .ok (), .ok ()⟩).trace.countP
      isHeapInit = 1 ∧
    (init_memory_management ⟨.ok ⟨0, [1]⟩, .ok (), .error "oom", .ok ()⟩).trace.countP
      isHeapInit = 0 :=
  ⟨(claim5_heap_activation ⟨.ok ⟨0, [1]⟩, .ok (), .ok (), .ok ()⟩).1 (by decide),
   (claim5_heap_activation ⟨.ok ⟨0, [1]⟩, .ok (), .error "oom", .ok ()⟩).2.1 (by decide)⟩

/-- C6 counterexample: on the all-success run the heap-allocator activation
(orchestration step 5, `heap::init_single_heap`) occurs while the frame
allocator's lock is still held: the `MutexGuard` taken for heap mapping
lives to the end of the enclosing block, so the lock IS held across another
orchestration step, contradicting the claim. -/
theorem claim6_counterexample :
    heapInitUnderLock
      (init_memory_management ⟨.ok ⟨0, [1]⟩, .ok (), .ok (), .ok ()⟩).trace
      false = true := by
  decide

/-- C6 amended: the frame-allocator lock is acquired immediately before the
heap-mapping operation and is released by the time the run returns on every
path (in particular every error return leaves it released); on the heap
mapping failure it is released as the error returns; but on success it is
released only after heap-allocator activation (step 5), which therefore runs
while the lock is held. -/
theorem claim6_amended (ext : Externals) :
    lockEndsReleased (init_memory_management ext).trace false = true ∧
    acquireImmediatelyPrecedesMap (init_memory_management ext).trace = true ∧
    (init_memory_management ext).trace.countP
      (fun ev => decide (ev = Event.lockAcquire)) ≤ 1 ∧
    (mapReached ext = true →
      heapInitUnderLock (init_memory_management ext).trace false = true) := by
  obtain ⟨mi, al, m, p⟩ := ext
  cases mi with
  | error e =>
    rw [run_memInitErr]
    refine ⟨?_, ?_, ?_, ?_⟩ <;>
      simp [mapReached, lockEndsReleased, acquireImmediatelyPrecedesMap]
  | ok v =>
    cases hs : Stack.from_pages v.stackGuardPage v.stackPages with
    | error x =>
      rw [run_stackFail v al m p x hs]
      refine ⟨?_, ?_, ?_, ?_⟩ <;>
        simp [mapReached, hs, forgetOnStackFail, lockEndsReleased,
          acquireImmediatelyPrecedesMap, heapInitUnderLock]
    | ok st =>
      cases al with
      | error e =>
        rw [run_allocFail v st e m p hs]
        refine ⟨?_, ?_, ?_, ?_⟩ <;>
          simp [mapReached, hs, forgetOnHeapFail, lockEndsReleased,
            acquireImmediatelyPrecedesMap, heapInitUnderLock]
      | ok u =>
        cases u
        cases m with
        | error e =>
          rw [run_mapFail v st e p hs]
          refine ⟨?_, ?_, ?_, ?_⟩ <;>
            simp [mapReached, hs, forgetOnHeapFail, lockEndsReleased,
              acquireImmediatelyPrecedesMap, heapInitUnderLock, isMapAttempt]
        | ok u2 =>
          cases u2
          cases p with
          | error e =>
            rw [run_postHeapFail v st e hs]
            refine ⟨?_, ?_, ?_, ?_⟩ <;>
              simp [mapReached, hs, lockEndsReleased,
                acquireImmediatelyPrecedesMap, heapInitUnderLock, isMapAttempt]
          | ok u3 =>
            cases u3
            rw [run_success v st hs]
            refine ⟨?_, ?_, ?_, ?_⟩ <;>
              simp [mapReached, hs, lockEndsReleased,
                acquireImmediatelyPrecedesMap, heapInitUnderLock, isMapAttempt]

theorem claim6_witness :
    lockEndsReleased
      (init_memory_management ⟨.ok ⟨0, [1]⟩, .ok (), .ok (), .ok ()⟩).trace
      false = true ∧
    heapInitUnderLock
      (init_memory_management ⟨.ok ⟨0, [1]⟩, .ok (), .ok (), .ok ()⟩).trace
      false = true :=
  ⟨(claim6_amended ⟨.ok ⟨0, [1]⟩, .ok (), .ok (), .ok ()⟩).1,
   (claim6_amended ⟨.ok ⟨0, [1]⟩, .ok (), .ok (), .ok ()⟩).2.2.2 (by decide)⟩

set_option maxRecDepth 8192 in
/-- C7: when heap mapping fails the run returns exactly the
HeapMappingFailed message, which names the configured size constant and
hints that it may exceed physical memory, and the emitted error log carries
the configured size and start address together with the inner mapping
error. -/
theorem claim7_heap_mapping_failed (ext : Externals) (mi : MemInitOut) (st : Stack)
    (e : String) (hmi : ext.memInit = .ok mi)
    (hs : Stack.from_pages mi.stackGuardPage mi.stackPages = .ok st)
    (ha : ext.allocRes = .ok ()) (hm : ext.mapRes = .error e) :
    (init_memory_management ext).result = .error heapMappingFailedMsg ∧
    Event.errorLog KERNEL_HEAP_INITIAL_SIZE KERNEL_HEAP_START e ∈
      (init_memory_management ext).trace ∧
    List.IsInfix "KERNEL_HEAP_INITIAL_SIZE".toList heapMappingFailedMsg.toList ∧
    List.IsInfix "exceeds the size of the system's physical memory".toList
      heapMappingFailedMsg.toList := by
  obtain ⟨emi, al, m, p⟩ := ext
  simp only at hmi ha hm
  subst hmi
  subst ha
  subst hm
  rw [run_mapFail mi st e p hs]
  refine ⟨rfl, ?_, ?_, ?_⟩
  · simp [forgetOnHeapFail]
  · decide
  · decide

theorem claim7_witness :
    (init_memory_management ⟨.ok ⟨0, [1]⟩, .ok (), .error "oom", .ok ()⟩).result =
      .error heapMappingFailedMsg ∧
    Event.errorLog KERNEL_HEAP_INITIAL_SIZE KERNEL_HEAP_START "oom" ∈
      (init_memory_management ⟨.ok ⟨0, [1]⟩, .ok (), .error "oom", .ok ()⟩).trace :=
  ⟨(claim7_heap_mapping_failed ⟨.ok ⟨0, [1]⟩, .ok (), .error "oom", .ok ()⟩
      ⟨0, [1]⟩ ⟨0, [1]⟩ "oom" rfl rfl rfl rfl).1,
   (claim7_heap_mapping_failed ⟨.ok ⟨0, [1]⟩, .ok (), .error "oom", .ok ()⟩
      ⟨0, [1]⟩ ⟨0, [1]⟩ "oom" rfl rfl rfl rfl).2.1⟩

/-- C8: a `memory::init` failure is returned unchanged with no forget/leak
handling (and no side effects at all); a `memory::init_post_heap` failure is
returned unchanged with no forget applied either, so the text, rodata, data
and stack regions are dropped (unmapped) on that path even though they are
live at that point. -/
theorem claim8_propagation :
    (∀ (e : String) (a m p : Except String Unit),
      init_memory_management ⟨.error e, a, m, p⟩ = ⟨.error e, []⟩) ∧
    (∀ ext mi st e, ext.memInit = .ok mi →
      Stack.from_pages mi.stackGuardPage mi.stackPages = .ok st →
      ext.allocRes = .ok () → ext.mapRes = .ok () → ext.postHeap = .error e →
      (init_memory_management ext).result = .error e ∧
      (∀ r, Event.forget r ∉ (init_memory_management ext).trace) ∧
      Event.drop Region.stack ∈ (init_memory_management ext).trace ∧
      Event.drop Region.data ∈ (init_memory_management ext).trace ∧
      Event.drop Region.rodata ∈ (init_memory_management ext).trace ∧
      Event.drop Region.text ∈ (init_memory_management ext).trace) := by
  constructor
  · exact fun e a m p => run_memInitErr e a m p
  · intro ext mi st e hmi hs ha hm hp
    obtain ⟨emi, al, m, p⟩ := ext
    simp only at hmi ha hm hp
    subst hmi
    subst ha
    subst hm
    subst hp
    rw [run_postHeapFail mi st e hs]
    refine ⟨rfl, ?_, ?_, ?_, ?_, ?_⟩
    · intro r; simp
    · simp
    · simp
    · simp
    · simp

theorem claim8_witness :
    init_memory_management ⟨.error "bad boot info", .ok (), .ok (), .ok ()⟩ =
      ⟨.error "bad boot info", []⟩ ∧
    (init_memory_management
        ⟨.ok ⟨0, [1]⟩, .ok (), .ok (), .error "post heap failed"⟩).result =
      .error "post heap failed" :=
  ⟨claim8_propagation.1 "bad boot info" (.ok ()) (.ok ()) (.ok ()),
   (claim8_propagation.2 ⟨.ok ⟨0, [1]⟩, .ok (), .ok (), .error "post heap failed"⟩
      ⟨0, [1]⟩ ⟨0, [1]⟩ "post heap failed" rfl rfl rfl rfl rfl).1⟩

end MemoryInit

namespace Rtc

theorem read_register_wait_ticks (fuel : Nat) :
    ∀ s, (read_register_wait fuel s).ticks = s.ticks := by
  induction fuel with
  | zero => intro s; rfl
  | succ n ih =>
    intro s
    unfold read_register_wait
    by_cases h : (get_update_in_progress s).1
    · simp only [h, if_true, ih]
      simp [get_update_in_progress, write_cmos]
    · simp only [h, if_false]
      simp [get_update_in_progress, write_cmos]

theorem read_register_ticks (fuel register : Nat) (s : RtcState) :
    ((read_register fuel register s).2).ticks = s.ticks := by
  simp [read_register, write_cmos, read_register_wait_ticks]

/-- C9: each RTC interrupt increments the tick counter by exactly one (as a
`usize` `fetch_add`, i.e. modulo 2 ^ 64; exactly one whenever the counter
has not saturated the machine word), the heartbeat trace message is emitted
exactly when the incremented count is a multiple of 128, and no other
operation of the driver changes the counter. -/
theorem claim9_tick_counter :
    (∀ s, (handle_rtc_interrupt s).1.ticks = (s.ticks + 1) % 2 ^ 64) ∧
    (∀ s, s.ticks + 1 < 2 ^ 64 → (handle_rtc_interrupt s).1.ticks = s.ticks + 1) ∧
    (∀ s, (handle_rtc_interrupt s).2 = true ↔ (s.ticks + 1) % 128 = 0) ∧
    (∀ s, (enable_rtc_interrupt s).ticks = s.ticks) ∧
    (∀ s rate, (change_rtc_frequency rate s).ticks = s.ticks) ∧
    (∀ s fuel, ((read_rtc fuel s).2).ticks = s.ticks) ∧
    (∀ s fuel register, ((read_register fuel register s).2).ticks = s.ticks) ∧
    (∀ s, ((get_update_in_progress s).2).ticks = s.ticks) ∧
    (∀ s value, (write_cmos value s).ticks = s.ticks) := by
  have hdvd : (128 : Nat) ∣ 2 ^ 64 := ⟨2 ^ 57, by norm_num⟩
  refine ⟨?_, ?_, ?_, ?_, ?_, ?_, ?_, ?_, ?_⟩
  · intro s
    simp [handle_rtc_interrupt, write_cmos]
  · intro s h
    simp only [handle_rtc_interrupt, write_cmos]
    exact Nat.mod_eq_of_lt h
  · intro s
    simp only [handle_rtc_interrupt, write_cmos, beq_iff_eq]
    rw [Nat.mod_mod_of_dvd _ hdvd]
  · intro s
    simp [enable_rtc_interrupt, disable_interrupts, enable_interrupts,
      write_cmos, read_cmos, write_cmos_settings]
  · intro s rate
    simp [change_rtc_frequency, disable_interrupts, enable_interrupts,
      write_cmos, read_cmos, write_cmos_settings]
  · intro s fuel
    simp [read_rtc, read_register_ticks]
  · intro s fuel register
    exact read_register_ticks fuel register s
  · intro s
    simp [get_update_in_progress, write_cmos]
  · intro s value
    rfl

theorem claim9_witness :
    (handle_rtc_interrupt ⟨0, fun _ => 0, true, 127⟩).1.ticks = 128 ∧
    ((handle_rtc_interrupt ⟨0, fun _ => 0, true, 127⟩).2 = true ↔
      (127 + 1) % 128 = 0) :=
  ⟨claim9_tick_counter.2.1 ⟨0, fun _ => 0, true, 127⟩ (by norm_num),
   claim9_tick_counter.2.2.1 ⟨0, fun _ => 0, true, 127⟩⟩

/-- C10 counterexample: `change_rtc_frequency` does NOT preserve the top 4
bits of CMOS register A for every rate argument: rate 16 (a valid `u8`) with
all registers zero writes `(0 &&& 0xF0) ||| 16 = 0x10`, whose top nibble is
1 while the previous top nibble was 0, so the universally quantified
preservation conjunct of the claim is false at this input. -/
theorem claim10_counterexample :
    ¬ ((change_rtc_frequency 16 (RtcState.mk 0 (fun _ => 0) true 0)).regs 0x8A / 16 =
       (RtcState.mk 0 (fun _ => 0) true 0).regs 0x8A / 16) := by
  decide

set_option maxRecDepth 16384 in
/-- C10 amended: `enable_rtc_interrupt` writes back register B as
`prev ||| 0x40` and leaves every other register unchanged;
`change_rtc_frequency rate` writes back register A as
`(prev &&& 0xF0) ||| rate` and leaves every other register unchanged; and
the top 4 bits of register A are preserved for every rate below 16 (the
documented range of valid rates is 3 to 15), though not for larger `u8`
arguments. -/
theorem claim10_amended :
    (∀ s, (enable_rtc_interrupt s).regs 0x8B = s.regs 0x8B ||| 0x40) ∧
    (∀ s r, r ≠ 0x8B → (enable_rtc_interrupt s).regs r = s.regs r) ∧
    (∀ s rate, (change_rtc_frequency rate s).regs 0x8A =
      (s.regs 0x8A &&& 0xF0) ||| rate) ∧
    (∀ s r rate, r ≠ 0x8A → (change_rtc_frequency rate s).regs r = s.regs r) ∧
    (∀ s rate, rate < 16 → s.regs 0x8A < 256 →
      (change_rtc_frequency rate s).regs 0x8A / 16 = s.regs 0x8A / 16) := by
  have key : ∀ x < 256, ∀ r < 16, ((x &&& 0xF0) ||| r) / 16 = x / 16 := by decide
  refine ⟨?_, ?_, ?_, ?_, ?_⟩
  · intro s
    simp [enable_rtc_interrupt, disable_interrupts, enable_interrupts,
      write_cmos, read_cmos, write_cmos_settings]
  · intro s r hr
    simp [enable_rtc_interrupt, disable_interrupts, enable_interrupts,
      write_cmos, read_cmos, write_cmos_settings, hr]
  · intro s rate
    simp [change_rtc_frequency, disable_interrupts, enable_interrupts,
      write_cmos, read_cmos, write_cmos_settings]
  · intro s r rate hr
    simp [change_rtc_frequency, disable_interrupts, enable_interrupts,
      write_cmos, read_cmos, write_cmos_settings, hr]
  · intro s rate hrate hreg
    have h3 : (change_rtc_frequency rate s).regs 0x8A =
        (s.regs 0x8A &&& 0xF0) ||| rate := by
      simp [change_rtc_frequency, disable_interrupts, enable_interrupts,
        write_cmos, read_cmos, write_cmos_settings]
    rw [h3]
    exact key _ hreg _ hrate

theorem claim10_witness :
    (enable_rtc_interrupt ⟨0, fun _ => 0x3F, true, 0⟩).regs 0x8B =
      (0x3F : Nat) ||| 0x40 ∧
    (change_rtc_frequency 6 ⟨0, fun _ => 0xAF, true, 0⟩).regs 0x8A / 16 =
      (0xAF : Nat) / 16 :=
  ⟨claim10_amended.1 ⟨0, fun _ => 0x3F, true, 0⟩,
   claim10_amended.2.2.2.2 ⟨0, fun _ => 0xAF, true, 0⟩ 6 (by norm_num) (by norm_num)⟩

end Rtc
